import Mathlib

/-!
A shallow embedding of the lesson-shop Express backend (`src/Server.js`,
with `src/unnamed/part_000` a near-identical variant) together with proofs
about its order-placement, catalog-update and search endpoints.

The MongoDB document store is modelled as in-memory lists of records; each
Express handler becomes a pure function from the database state and the
parsed request to an HTTP response paired with the successor state.  The
storage layer is assumed reachable (connectivity loss is outside the model).
-/

namespace LessonShop

/-- A document of the `Products` collection: a lesson with remaining spaces.
`_id` is the ObjectId rendered as its canonical hex string; `price` is a
non-negative number and `spaces` an integer (decrements are unguarded in the
code, so `spaces` must be allowed to go negative in the model). -/
structure CatalogEntry where
  _id : String
  subject : String
  location : String
  price : Nat
  spaces : Int
deriving DecidableEq, Repr

/-- One element of an order's `items` array: `{ lessonId, qty }` as read by
the `POST /orders` handler (`item.lessonId`, `item.qty`). -/
structure OrderItem where
  lessonId : String
  qty : Int
deriving DecidableEq, Repr

/-- A document inserted into the `Orders` collection by `POST /orders`:
`{ name, phone, address, items }`. -/
structure OrderRecord where
  name : String
  phone : String
  address : Option String
  items : List OrderItem
deriving DecidableEq, Repr

/-- The database state: the `Products` and `Orders` collections. -/
structure DB where
  products : List CatalogEntry
  orders : List OrderRecord
deriving DecidableEq, Repr

/-- An HTTP response: status code and body text. -/
structure HttpResp where
  status : Nat
  body : String
deriving DecidableEq, Repr

/-- The parsed JSON body of `POST /orders` after destructuring
`const { name, phone, address, items } = req.body`.  A missing or empty
`name`/`phone` string is modelled as `""` (both are falsy in JS and take
the same path); `items` is `none` when `req.body.items` is not an array
(`Array.isArray(items)` is false), mirroring the only check the code makes. -/
structure OrderBody where
  name : String
  phone : String
  address : Option String
  items : Option (List OrderItem)
deriving DecidableEq, Repr

/-- The mongodb driver's `ObjectId.isValid` on a string argument: true for
12-character strings (taken as raw bytes) and for 24-character hex strings.
`new ObjectId(s)` throws exactly when this is false. -/
def objectIdIsValid (s : String) : Bool :=
  s.length = 12 || (s.length = 24 && s.toList.all fun c =>
    c.isDigit || ('a' ≤ c && c ≤ 'f') || ('A' ≤ c && c ≤ 'F'))

/-- The ASCII upper-to-lower case pairs. -/
def lcTable : List (Char × Char) :=
  [('A','a'), ('B','b'), ('C','c'), ('D','d'), ('E','e'), ('F','f'),
   ('G','g'), ('H','h'), ('I','i'), ('J','j'), ('K','k'), ('L','l'),
   ('M','m'), ('N','n'), ('O','o'), ('P','p'), ('Q','q'), ('R','r'),
   ('S','s'), ('T','t'), ('U','u'), ('V','v'), ('W','w'), ('X','x'),
   ('Y','y'), ('Z','z')]

/-- ASCII lower-casing of one character, the model of JS `toLowerCase()` and
of the case-folding the `i` regex option performs (both handlers only meet
ASCII data in this repository). -/
def lc (c : Char) : Char :=
  ((lcTable.find? fun p => p.1 == c).map Prod.snd).getD c

/-- Canonical form of an ObjectId string for equality: 24-character hex ids
compare case-insensitively (the driver normalises hex to lower case);
other ids compare as given. -/
def oidNorm (s : String) : String :=
  if s.length = 24 then ⟨s.data.map lc⟩ else s

/-- Whether the filter `{ _id: new ObjectId(queryId) }` matches a stored id. -/
def oidMatches (queryId storedId : String) : Bool :=
  oidNorm queryId = oidNorm storedId

/-- The call `updateOne({_id: oid}, {$inc: {spaces: -qty}})` on the `Products`
collection: decrement `spaces` of the first entry whose `_id` matches;
no match means no change (matched-count zero). -/
def decOne (ps : List CatalogEntry) (id : String) (q : Int) : List CatalogEntry :=
  match ps with
  | [] => []
  | e :: rest =>
    if oidMatches id e._id then { e with spaces := e.spaces - q } :: rest
    else e :: decOne rest id q

/-- The `for (const item of items)` loop of `POST /orders`: items are applied
sequentially; `new ObjectId(item.lessonId)` throws on a malformed id, which
aborts the loop (the Boolean result is `false` and the remaining items are
not applied — the handler's `catch` then answers 500). -/
def applyItems (ps : List CatalogEntry) : List OrderItem → List CatalogEntry × Bool
  | [] => (ps, true)
  | it :: rest =>
    if objectIdIsValid it.lessonId then applyItems (decOne ps it.lessonId it.qty) rest
    else (ps, false)

/-- The `POST /orders` handler of `src/Server.js`: validate
(`!name || !phone || !Array.isArray(items)` → 400), insert the order into
`Orders`, then decrement spaces per item; 201 on completion, 500 when an
item's id makes `new ObjectId` throw (the inserted order and the decrements
already applied are kept — there is no rollback). -/
def placeOrder (db : DB) (b : OrderBody) : HttpResp × DB :=
  match b.items with
  | none => (⟨400, "Invalid order format"⟩, db)
  | some its =>
    if b.name = "" || b.phone = "" then (⟨400, "Invalid order format"⟩, db)
    else
      let orders2 := db.orders ++ [⟨b.name, b.phone, b.address, its⟩]
      let r := applyItems db.products its
      if r.2 then (⟨201, "Order saved"⟩, ⟨r.1, orders2⟩)
      else (⟨500, "Error saving order"⟩, ⟨r.1, orders2⟩)

/-- A `findOne`-style lookup used to state properties: the first `Products`
entry whose `_id` matches the given id (the document `updateOne` would
match). -/
def findEntry (ps : List CatalogEntry) (id : String) : Option CatalogEntry :=
  ps.find? fun e => oidMatches id e._id

/-- The partial-fields body of `PUT /lessons/:id` (the `$set` document). -/
structure UpdateFields where
  subject : Option String
  location : Option String
  price : Option Nat
  spaces : Option Int
deriving DecidableEq, Repr

/-- Application of `$set` of the given fields to one entry. -/
def applySet (e : CatalogEntry) (u : UpdateFields) : CatalogEntry :=
  { e with
    subject := u.subject.getD e.subject
    location := u.location.getD e.location
    price := u.price.getD e.price
    spaces := u.spaces.getD e.spaces }

/-- The call `updateOne({_id: oid}, {$set: updates})`: update the first matching
entry, returning the new collection and the matched count (0 or 1). -/
def setOne (ps : List CatalogEntry) (id : String) (u : UpdateFields) :
    List CatalogEntry × Nat :=
  match ps with
  | [] => ([], 0)
  | e :: rest =>
    if oidMatches id e._id then (applySet e u :: rest, 1)
    else
      let r := setOne rest id u
      (e :: r.1, r.2)

/-- The `PUT /lessons/:id` handler of `src/Server.js`: 400 when
`ObjectId.isValid(lessonId)` is false, 404 when `matchedCount === 0`,
otherwise apply the `$set` and answer 200 `"Lesson updated"`. -/
def updateLesson (db : DB) (id : String) (u : UpdateFields) : HttpResp × DB :=
  if objectIdIsValid id then
    let r := setOne db.products id u
    if r.2 = 0 then (⟨404, "Lesson not found"⟩, db)
    else (⟨200, "Lesson updated"⟩, ⟨r.1, db.orders⟩)
  else (⟨400, "Invalid lesson ID"⟩, db)

/-- One element of a compiled regular-expression pattern: a literal
character or the `.` wildcard. -/
inductive RElem where
  | lit : Char → RElem
  | dot : RElem
deriving DecidableEq, Repr

/-- The regex metacharacters (other than `.`) of the PCRE dialect MongoDB's
`$regex` uses.  `GET /search` passes the raw query string as the pattern, so
these characters carry regex meaning there; queries using them fall outside
the fragment this model compiles (`compileRegex` returns `none`). -/
def regexMeta : List Char :=
  ['^', '$', '*', '+', '?', '(', ')', '[', ']', '\x7b', '\x7d', '|', '\\']

/-- Compile a query string, character by character, into a pattern: `.`
becomes the wildcard, a character with no regex meaning becomes a literal,
and any other metacharacter is outside the modelled fragment. -/
def compileRegex : List Char → Option (List RElem)
  | [] => some []
  | c :: cs =>
    if c = '.' then (compileRegex cs).map fun p => RElem.dot :: p
    else if regexMeta.contains c then none
    else (compileRegex cs).map fun p => RElem.lit c :: p

/-- Whether a pattern element matches one character, under the
case-insensitive `i` option. -/
def elemMatch : RElem → Char → Bool
  | RElem.dot, _ => true
  | RElem.lit a, c => lc a == lc c

/-- Whether the pattern matches a prefix of the character list. -/
def matchHere : List RElem → List Char → Bool
  | [], _ => true
  | _ :: _, [] => false
  | e :: p, c :: s => elemMatch e c && matchHere p s

/-- Unanchored regex matching, as `$regexMatch`/`$regex` perform it: the
pattern may match starting at any position of the subject string. -/
def regexFind : List RElem → List Char → Bool
  | p, [] => matchHere p []
  | p, c :: s => matchHere p (c :: s) || regexFind p s

/-- The `$or` filter of `GET /search`: the pattern is matched (option `i`)
against `subject`, `location`, and the `$toString` renderings of `price`
and `spaces`. -/
def entryMatches (pat : List RElem) (e : CatalogEntry) : Bool :=
  regexFind pat e.subject.toList || regexFind pat e.location.toList ||
  regexFind pat (toString e.price).toList || regexFind pat (toString e.spaces).toList

/-- The `GET /search` handler of `src/Server.js`:
`query = req.query.q?.toLowerCase() || ""` and then `find` with the `$or`
regex filter above.  `none` means the query used a regex feature outside
the modelled fragment. -/
def searchLessons (ps : List CatalogEntry) (qraw : Option String) :
    Option (List CatalogEntry) :=
  let q : List Char := ((qraw.getD "").toList).map lc
  (compileRegex q).map fun pat => ps.filter (entryMatches pat)

/-- Modelled from the spec: case-insensitive substring presence of the query
in one rendered field ("a match is case-insensitive substring presence"). -/
def specContains (hay q : String) : Bool :=
  decide ((q.toList.map lc) <:+: (hay.toList.map lc))

/-- Modelled from the spec: an entry matches a query when any of `subject`,
`location`, or the decimal renderings of `price` and `spaces` contains the
query case-insensitively (logical OR over the four fields). -/
def specMatches (q : String) (e : CatalogEntry) : Bool :=
  specContains e.subject q || specContains e.location q ||
  specContains (toString e.price) q || specContains (toString e.spaces) q

/-! ### Lemmas about the order-placement loop -/

theorem findEntry_nil (id : String) : findEntry [] id = none := rfl

theorem findEntry_cons (e : CatalogEntry) (rest : List CatalogEntry) (id : String) :
    findEntry (e :: rest) id =
      if oidMatches id e._id then some e else findEntry rest id := by
  by_cases h : oidMatches id e._id = true
  · simp [findEntry, h, List.find?_cons_of_pos]
  · simp only [Bool.not_eq_true] at h
    simp [findEntry, h, List.find?_cons_of_neg]

/-- Decrementing a non-matching id changes nothing. -/
theorem decOne_of_none (ps : List CatalogEntry) (id : String) (q : Int)
    (h : findEntry ps id = none) : decOne ps id q = ps := by
  induction ps with
  | nil => rfl
  | cons e rest ih =>
    rw [findEntry_cons] at h
    by_cases hm : oidMatches id e._id = true
    · simp [hm] at h
    · simp only [Bool.not_eq_true] at hm
      simp [hm] at h
      simp [decOne, hm, ih h]

/-- A decrement never creates a matching entry: `findEntry` stays `none`. -/
theorem findEntry_none_decOne (ps : List CatalogEntry) (id id2 : String) (q : Int)
    (h : findEntry ps id = none) : findEntry (decOne ps id2 q) id = none := by
  induction ps with
  | nil => rfl
  | cons e rest ih =>
    rw [findEntry_cons] at h
    by_cases hm : oidMatches id e._id = true
    · simp [hm] at h
    · simp only [Bool.not_eq_true] at hm
      simp [hm] at h
      by_cases hm2 : oidMatches id2 e._id = true
      · simp [decOne, hm2, findEntry_cons, hm, h]
      · simp only [Bool.not_eq_true] at hm2
        simp [decOne, hm2, findEntry_cons, hm, ih h]

/-- Looking up the decremented id sees exactly the decremented spaces. -/
theorem findEntry_decOne_self (ps : List CatalogEntry) (id : String) (q : Int) :
    findEntry (decOne ps id q) id =
      (findEntry ps id).map fun e => { e with spaces := e.spaces - q } := by
  induction ps with
  | nil => rfl
  | cons e rest ih =>
    by_cases hm : oidMatches id e._id = true
    · simp [decOne, hm, findEntry_cons]
    · simp only [Bool.not_eq_true] at hm
      simp [decOne, hm, findEntry_cons, ih]

/-- Decrementing a different id leaves a lookup unchanged. -/
theorem findEntry_decOne_ne (ps : List CatalogEntry) (id id2 : String) (q : Int)
    (h : oidNorm id ≠ oidNorm id2) :
    findEntry (decOne ps id2 q) id = findEntry ps id := by
  induction ps with
  | nil => rfl
  | cons e rest ih =>
    by_cases hm2 : oidMatches id2 e._id = true
    · have hm : oidMatches id e._id = false := by
        rcases hb : oidMatches id e._id with _ | _
        · rfl
        · exfalso
          apply h
          rw [oidMatches, decide_eq_true_eq] at hm2 hb
          rw [hb, hm2]
      simp [decOne, hm2, findEntry_cons, hm]
    · simp only [Bool.not_eq_true] at hm2
      simp [decOne, hm2, findEntry_cons, ih]

/-- With every item id well-formed, the loop completes without throwing. -/
theorem applyItems_ok (ps : List CatalogEntry) (its : List OrderItem)
    (hv : ∀ it ∈ its, objectIdIsValid it.lessonId = true) :
    (applyItems ps its).2 = true := by
  induction its generalizing ps with
  | nil => rfl
  | cons it rest ih =>
    have h1 := hv it (List.mem_cons_self it rest)
    simp only [applyItems, h1, if_true]
    exact ih _ fun i hi => hv i (List.mem_cons_of_mem it hi)

/-- With some item id malformed, the loop throws. -/
theorem applyItems_fail (ps : List CatalogEntry) (its : List OrderItem)
    (hv : ¬ ∀ it ∈ its, objectIdIsValid it.lessonId = true) :
    (applyItems ps its).2 = false := by
  induction its generalizing ps with
  | nil => exact absurd (by simp) hv
  | cons it rest ih =>
    by_cases h1 : objectIdIsValid it.lessonId = true
    · simp only [applyItems, h1, if_true]
      apply ih
      intro hall
      exact hv fun i hi => by
        rcases List.mem_cons.1 hi with h | h
        · rw [h]; exact h1
        · exact hall i h
    · simp only [Bool.not_eq_true] at h1
      simp [applyItems, h1]

/-- Items whose ids all differ from `id` leave the lookup at `id` unchanged. -/
theorem applyItems_find_preserve (ps : List CatalogEntry) (its : List OrderItem)
    (id : String) (h : ∀ it ∈ its, oidNorm id ≠ oidNorm it.lessonId) :
    findEntry (applyItems ps its).1 id = findEntry ps id := by
  induction its generalizing ps with
  | nil => rfl
  | cons it rest ih =>
    by_cases h1 : objectIdIsValid it.lessonId = true
    · simp only [applyItems, h1, if_true]
      rw [ih _ fun i hi => h i (List.mem_cons_of_mem it hi),
        findEntry_decOne_ne _ _ _ _ (h it (List.mem_cons_self it rest))]
    · simp only [Bool.not_eq_true] at h1
      simp [applyItems, h1]

/-- The central lemma: under well-formed, pairwise-distinct item ids, the
loop leaves each referenced entry with its spaces decremented by exactly
that item's qty. -/
theorem applyItems_find (ps : List CatalogEntry) (its : List OrderItem)
    (it : OrderItem) (e : CatalogEntry)
    (hv : ∀ i ∈ its, objectIdIsValid i.lessonId = true)
    (hdist : its.Pairwise fun a b => oidNorm a.lessonId ≠ oidNorm b.lessonId)
    (hmem : it ∈ its)
    (hfind : findEntry ps it.lessonId = some e) :
    findEntry (applyItems ps its).1 it.lessonId =
      some { e with spaces := e.spaces - it.qty } := by
  induction its generalizing ps with
  | nil => cases hmem
  | cons hd rest ih =>
    have hhd := hv hd (List.mem_cons_self hd rest)
    simp only [applyItems, hhd, if_true]
    rcases List.mem_cons.1 hmem with hcase | hcase
    · subst hcase
      rw [applyItems_find_preserve]
      · rw [findEntry_decOne_self, hfind]
        rfl
      · intro i hi
        exact (List.pairwise_cons.1 hdist).1 i hi
    · apply ih _ (fun i hi => hv i (List.mem_cons_of_mem hd hi))
        (List.pairwise_cons.1 hdist).2 hcase
      rw [findEntry_decOne_ne]
      · exact hfind
      · exact fun hEq => (List.pairwise_cons.1 hdist).1 it hcase hEq.symm

/-! ### Lemmas about the search endpoint -/

theorem lc_idem (c : Char) : lc (lc c) = lc c := by
  rcases hf : lcTable.find? (fun p => p.1 == c) with _ | p
  · unfold lc
    rw [hf]
    simp [hf]
  · have hmem := List.mem_of_find?_eq_some hf
    have hall : ∀ r ∈ lcTable, ∀ q ∈ lcTable, (q.1 == r.2) = false := by decide
    have hnone : lcTable.find? (fun q => q.1 == p.2) = none := by
      rw [List.find?_eq_none]
      intro q hq
      simp [hall p hmem q hq]
    unfold lc
    rw [hf]
    simp [hnone]

/-- A metacharacter-free query compiles to the list of its literals. -/
theorem compileRegex_lits (l : List Char)
    (h : ∀ c ∈ l, c ≠ '.' ∧ regexMeta.contains c = false) :
    compileRegex l = some (l.map RElem.lit) := by
  induction l with
  | nil => rfl
  | cons c cs ih =>
    have hc := h c (List.mem_cons_self c cs)
    have h3 : c ∉ regexMeta := by simpa using hc.2
    simp [compileRegex, hc.1, h3, ih fun d hd => h d (List.mem_cons_of_mem c hd)]

/-- Anchored matching of an all-literal pattern is case-folded prefixhood. -/
theorem matchHere_lits (l s : List Char) :
    matchHere (l.map RElem.lit) s = true ↔ l.map lc <+: s.map lc := by
  induction l generalizing s with
  | nil => simp [matchHere]
  | cons a l ih =>
    cases s with
    | nil => simp [matchHere]
    | cons c s =>
      simp [matchHere, elemMatch, ih, List.cons_prefix_cons, Bool.and_eq_true,
        beq_iff_eq, and_comm]

/-- Unanchored matching of an all-literal pattern is case-folded infixhood,
i.e. exactly case-insensitive substring presence. -/
theorem regexFind_lits (l s : List Char) :
    regexFind (l.map RElem.lit) s = true ↔ l.map lc <:+: s.map lc := by
  induction s with
  | nil =>
    simp only [regexFind, matchHere_lits]
    simp
  | cons c s ih =>
    simp only [regexFind, Bool.or_eq_true, matchHere_lits, ih, List.map_cons,
      List.infix_cons_iff]

/-- The empty pattern matches every subject. -/
theorem regexFind_nil (s : List Char) : regexFind [] s = true := by
  induction s with
  | nil => rfl
  | cons c s ih => simp [regexFind, matchHere, ih]

/-- On one rendered field, the compiled lower-cased literal query matches
exactly when the spec's case-insensitive substring test succeeds. -/
theorem regexFind_eq_specContains (q : List Char) (hay : String) :
    regexFind ((q.map lc).map RElem.lit) hay.toList = specContains hay ⟨q⟩ := by
  rcases hb : specContains hay ⟨q⟩ with _ | _
  · rw [specContains, decide_eq_false_iff_not] at hb
    rcases hr : regexFind ((q.map lc).map RElem.lit) hay.toList with _ | _
    · rfl
    · exfalso
      apply hb
      have := (regexFind_lits (q.map lc) hay.toList).1 hr
      rwa [List.map_map, show lc ∘ lc = lc from funext lc_idem] at this
  · rw [specContains, decide_eq_true_eq] at hb
    apply (regexFind_lits (q.map lc) hay.toList).2
    rwa [List.map_map, show lc ∘ lc = lc from funext lc_idem]

/-- Per-entry form of the previous lemma, over the `$or` of the four
rendered fields. -/
theorem entryMatches_eq_specMatches (q : List Char) (e : CatalogEntry) :
    entryMatches ((q.map lc).map RElem.lit) e = specMatches ⟨q⟩ e := by
  rw [entryMatches, specMatches, regexFind_eq_specContains,
    regexFind_eq_specContains, regexFind_eq_specContains, regexFind_eq_specContains]

/-! ### Lemmas about the update endpoint -/

/-- With no matching entry, `$set` matches zero documents and changes
nothing. -/
theorem setOne_of_none (ps : List CatalogEntry) (id : String) (u : UpdateFields)
    (h : findEntry ps id = none) : setOne ps id u = (ps, 0) := by
  induction ps with
  | nil => rfl
  | cons e rest ih =>
    rw [findEntry_cons] at h
    by_cases hm : oidMatches id e._id = true
    · simp [hm] at h
    · simp only [Bool.not_eq_true] at hm
      simp [hm] at h
      simp [setOne, hm, ih h]

/-- Behaviour of `POST /orders` once validation has passed: the order is
inserted, the items are applied, and the status reports only whether the
item loop threw. -/
theorem placeOrder_valid (db : DB) (b : OrderBody) (its : List OrderItem)
    (hi : b.items = some its) (hn : b.name ≠ "") (hp : b.phone ≠ "") :
    placeOrder db b =
      (if (applyItems db.products its).2 then (⟨201, "Order saved"⟩ : HttpResp)
        else ⟨500, "Error saving order"⟩,
       ⟨(applyItems db.products its).1,
        db.orders ++ [⟨b.name, b.phone, b.address, its⟩]⟩) := by
  simp only [placeOrder, hi]
  simp [hn, hp]
  split <;> rfl

/-- An item matching no entry can be dropped from the loop without changing
the final products: its decrement is a no-op and the loop continues. -/
theorem applyItems_erase_of_none (ps : List CatalogEntry) (its : List OrderItem)
    (it : OrderItem) (hv : ∀ i ∈ its, objectIdIsValid i.lessonId = true)
    (hmem : it ∈ its) (hnone : findEntry ps it.lessonId = none) :
    applyItems ps its = applyItems ps (its.erase it) := by
  induction its generalizing ps with
  | nil => cases hmem
  | cons hd rest ih =>
    have hhd := hv hd (List.mem_cons_self hd rest)
    by_cases hh : hd = it
    · subst hh
      rw [List.erase_cons_head]
      simp only [applyItems, hhd, if_true]
      rw [decOne_of_none ps hd.lessonId hd.qty hnone]
    · rw [List.erase_cons_tail (by simpa using fun hEq => hh hEq)]
      simp only [applyItems, hhd, if_true]
      exact ih _ (fun i hi2 => hv i (List.mem_cons_of_mem hd hi2))
        (List.mem_of_ne_of_mem (fun hEq => hh hEq.symm) hmem)
        (findEntry_none_decOne ps it.lessonId hd.lessonId hd.qty hnone)

/-! ### Concrete fixtures used by witnesses and counterexamples -/

/-- The catalog entry of the spec's scenario: `{id: E1, spaces: 5}`. -/
def mathsEntry : CatalogEntry := ⟨"aaaaaaaaaaaaaaaaaaaaaaaa", "Math", "Hendon", 100, 5⟩

/-- A one-entry database. -/
def demoDB : DB := ⟨[mathsEntry], []⟩

/-! ### The claims -/

/-- C1: for every valid OrderRequest whose items (referencing pairwise
distinct entries, as in the spec's scenario) all resolve to existing catalog
entries with sufficient spaces, `placeOrder` succeeds (201), the Orders
collection gains exactly the one record built from the request, and each
referenced entry's `spaces` decreases by exactly the requested qty. -/
theorem C1_placeOrder_success_and_decrement
    (db : DB) (b : OrderBody) (its : List OrderItem)
    (hi : b.items = some its) (hn : b.name ≠ "") (hp : b.phone ≠ "")
    (hne : its ≠ [])
    (hqty : ∀ it ∈ its, 0 < it.qty)
    (hv : ∀ it ∈ its, objectIdIsValid it.lessonId = true)
    (hdist : its.Pairwise fun a c => oidNorm a.lessonId ≠ oidNorm c.lessonId)
    (hex : ∀ it ∈ its, ∃ e, findEntry db.products it.lessonId = some e ∧
      it.qty ≤ e.spaces) :
    (placeOrder db b).1 = ⟨201, "Order saved"⟩ ∧
    (placeOrder db b).2.orders = db.orders ++ [⟨b.name, b.phone, b.address, its⟩] ∧
    ∀ it ∈ its, ∀ e, findEntry db.products it.lessonId = some e →
      findEntry (placeOrder db b).2.products it.lessonId =
        some { e with spaces := e.spaces - it.qty } := by
  rw [placeOrder_valid db b its hi hn hp]
  refine ⟨by simp [applyItems_ok db.products its hv], rfl, ?_⟩
  intro it hmem e hfind
  simpa using applyItems_find db.products its it e hv hdist hmem hfind

/-- Witness for C1 at the spec's scenario: entry with spaces 5, one item of
qty 3; the order is recorded and spaces becomes 2. -/
theorem C1_witness :
    (placeOrder demoDB ⟨"Alice", "07000000000", none,
        some [⟨"aaaaaaaaaaaaaaaaaaaaaaaa", 3⟩]⟩).1 = ⟨201, "Order saved"⟩ ∧
    (placeOrder demoDB ⟨"Alice", "07000000000", none,
        some [⟨"aaaaaaaaaaaaaaaaaaaaaaaa", 3⟩]⟩).2.orders =
      [⟨"Alice", "07000000000", none, [⟨"aaaaaaaaaaaaaaaaaaaaaaaa", 3⟩]⟩] ∧
    findEntry (placeOrder demoDB ⟨"Alice", "07000000000", none,
        some [⟨"aaaaaaaaaaaaaaaaaaaaaaaa", 3⟩]⟩).2.products "aaaaaaaaaaaaaaaaaaaaaaaa" =
      some ⟨"aaaaaaaaaaaaaaaaaaaaaaaa", "Math", "Hendon", 100, 2⟩ := by
  obtain ⟨h1, h2, h3⟩ := C1_placeOrder_success_and_decrement demoDB
    ⟨"Alice", "07000000000", none, some [⟨"aaaaaaaaaaaaaaaaaaaaaaaa", 3⟩]⟩
    [⟨"aaaaaaaaaaaaaaaaaaaaaaaa", 3⟩] rfl (by decide) (by decide) (by decide)
    (by decide) (by decide) (by decide)
    (fun it hmem => by
      have h := List.mem_singleton.1 hmem
      subst h
      exact ⟨mathsEntry, by decide, by decide⟩)
  refine ⟨h1, by simpa using h2, ?_⟩
  have h4 := h3 ⟨"aaaaaaaaaaaaaaaaaaaaaaaa", 3⟩ (List.mem_singleton.2 rfl)
    mathsEntry (by decide)
  rw [h4]
  decide

/-- C2: once validation passes, the order record is written to the Orders
collection unconditionally — the equation holds whether the item loop
completes (201) or throws midway (500), so the record is never rolled back
on inventory failure. -/
theorem C2_order_write_unconditional (db : DB) (b : OrderBody) (its : List OrderItem)
    (hi : b.items = some its) (hn : b.name ≠ "") (hp : b.phone ≠ "") :
    (placeOrder db b).2.orders = db.orders ++ [⟨b.name, b.phone, b.address, its⟩] := by
  rw [placeOrder_valid db b its hi hn hp]

/-- Witness for C2: an order whose only item throws (malformed id): the
request fails with 500, yet the order record is persisted. -/
theorem C2_witness :
    (placeOrder demoDB ⟨"Bob", "07000000001", none, some [⟨"zz", 1⟩]⟩).2.orders =
      [⟨"Bob", "07000000001", none, [⟨"zz", 1⟩]⟩] := by
  have h := C2_order_write_unconditional demoDB
    ⟨"Bob", "07000000001", none, some [⟨"zz", 1⟩]⟩ [⟨"zz", 1⟩] rfl (by decide) (by decide)
  simpa using h

/-- C3 counterexample: the claim "spaces never goes below zero after a
successful order" fails on the code: qty 6 against spaces 5 is applied
without a floor check, the request succeeds with 201, and spaces ends
at -1. -/
theorem C3_counterexample :
    (placeOrder demoDB ⟨"Eve", "07000000002", none,
        some [⟨"aaaaaaaaaaaaaaaaaaaaaaaa", 6⟩]⟩).1.status = 201 ∧
    findEntry (placeOrder demoDB ⟨"Eve", "07000000002", none,
        some [⟨"aaaaaaaaaaaaaaaaaaaaaaaa", 6⟩]⟩).2.products "aaaaaaaaaaaaaaaaaaaaaaaa" =
      some ⟨"aaaaaaaaaaaaaaaaaaaaaaaa", "Math", "Hendon", 100, -1⟩ := by
  decide

/-- C3 amended: after a successful order a referenced entry's spaces stays
≥ 0 only under the precondition that each requested qty is at most the
entry's current spaces; the code applies the decrement with no floor check,
so outside that precondition spaces goes negative. -/
theorem C3_amended_nonneg_under_sufficiency
    (db : DB) (b : OrderBody) (its : List OrderItem)
    (hi : b.items = some its) (hn : b.name ≠ "") (hp : b.phone ≠ "")
    (hv : ∀ it ∈ its, objectIdIsValid it.lessonId = true)
    (hdist : its.Pairwise fun a c => oidNorm a.lessonId ≠ oidNorm c.lessonId)
    (hex : ∀ it ∈ its, ∃ e, findEntry db.products it.lessonId = some e ∧
      it.qty ≤ e.spaces) :
    ∀ it ∈ its, ∀ e, findEntry db.products it.lessonId = some e →
      findEntry (placeOrder db b).2.products it.lessonId =
        some { e with spaces := e.spaces - it.qty } ∧
      0 ≤ e.spaces - it.qty := by
  intro it hmem e hfind
  obtain ⟨e2, he2, hq2⟩ := hex it hmem
  rw [hfind] at he2
  cases he2
  constructor
  · rw [placeOrder_valid db b its hi hn hp]
    simpa using applyItems_find db.products its it e hv hdist hmem hfind
  · omega

/-- Witness for C3 (amended) at qty 3 against spaces 5: result 2 ≥ 0. -/
theorem C3_witness :
    findEntry (placeOrder demoDB ⟨"Ann", "07000000003", none,
        some [⟨"aaaaaaaaaaaaaaaaaaaaaaaa", 3⟩]⟩).2.products "aaaaaaaaaaaaaaaaaaaaaaaa" =
      some { mathsEntry with spaces := mathsEntry.spaces - 3 } ∧
    0 ≤ mathsEntry.spaces - 3 :=
  C3_amended_nonneg_under_sufficiency demoDB
    ⟨"Ann", "07000000003", none, some [⟨"aaaaaaaaaaaaaaaaaaaaaaaa", 3⟩]⟩
    [⟨"aaaaaaaaaaaaaaaaaaaaaaaa", 3⟩] rfl (by decide) (by decide) (by decide)
    (by decide)
    (fun it hmem => by
      have h := List.mem_singleton.1 hmem
      subst h
      exact ⟨mathsEntry, by decide, by decide⟩)
    ⟨"aaaaaaaaaaaaaaaaaaaaaaaa", 3⟩ (List.mem_singleton.2 rfl) mathsEntry (by decide)

/-- C4 counterexample: the claim's final part — that the result "reports
that item's outcome as not-applied" — fails on the code: the success
response is the constant `201 "Order saved"`, byte-identical for a request
whose only item matched nothing (outcome not applied) and for one whose
only item was applied (the last conjunct shows the two outcomes really
differ), so the response reports no per-item outcome at all. -/
theorem C4_counterexample :
    (placeOrder demoDB ⟨"Cara", "07000000004", none,
        some [⟨"bbbbbbbbbbbbbbbbbbbbbbbb", 1⟩]⟩).1 =
      (placeOrder demoDB ⟨"Cara", "07000000004", none,
        some [⟨"aaaaaaaaaaaaaaaaaaaaaaaa", 1⟩]⟩).1 ∧
    (placeOrder demoDB ⟨"Cara", "07000000004", none,
        some [⟨"bbbbbbbbbbbbbbbbbbbbbbbb", 1⟩]⟩).1 = ⟨201, "Order saved"⟩ ∧
    findEntry demoDB.products "bbbbbbbbbbbbbbbbbbbbbbbb" = none ∧
    (placeOrder demoDB ⟨"Cara", "07000000004", none,
        some [⟨"bbbbbbbbbbbbbbbbbbbbbbbb", 1⟩]⟩).2.products ≠
      (placeOrder demoDB ⟨"Cara", "07000000004", none,
        some [⟨"aaaaaaaaaaaaaaaaaaaaaaaa", 1⟩]⟩).2.products := by
  decide

/-- C4 amended: for a validated request whose item ids are well-formed, an
item resolving to no catalog entry makes its decrement a no-op (the final
products are those of the loop with that item dropped), the loop continues,
the order is still recorded, and the call succeeds overall with the fixed
body `"Order saved"`; no per-item outcome is reported. -/
theorem C4_unmatched_item_is_noop
    (db : DB) (b : OrderBody) (its : List OrderItem) (it : OrderItem)
    (hi : b.items = some its) (hn : b.name ≠ "") (hp : b.phone ≠ "")
    (hv : ∀ i ∈ its, objectIdIsValid i.lessonId = true)
    (hmem : it ∈ its)
    (hnone : findEntry db.products it.lessonId = none) :
    (placeOrder db b).1 = ⟨201, "Order saved"⟩ ∧
    (placeOrder db b).2.orders = db.orders ++ [⟨b.name, b.phone, b.address, its⟩] ∧
    (placeOrder db b).2.products = (applyItems db.products (its.erase it)).1 := by
  rw [placeOrder_valid db b its hi hn hp]
  refine ⟨by simp [applyItems_ok db.products its hv], rfl, ?_⟩
  have h := applyItems_erase_of_none db.products its it hv hmem hnone
  simp [h]

/-- Witness for C4 (amended): the sole item references no entry; the call
answers 201, records the order, and the catalog is exactly what the empty
loop leaves. -/
theorem C4_witness :
    (placeOrder demoDB ⟨"Dan", "07000000005", none,
        some [⟨"bbbbbbbbbbbbbbbbbbbbbbbb", 2⟩]⟩).1 = ⟨201, "Order saved"⟩ ∧
    (placeOrder demoDB ⟨"Dan", "07000000005", none,
        some [⟨"bbbbbbbbbbbbbbbbbbbbbbbb", 2⟩]⟩).2.orders =
      [⟨"Dan", "07000000005", none, [⟨"bbbbbbbbbbbbbbbbbbbbbbbb", 2⟩]⟩] ∧
    (placeOrder demoDB ⟨"Dan", "07000000005", none,
        some [⟨"bbbbbbbbbbbbbbbbbbbbbbbb", 2⟩]⟩).2.products =
      (applyItems demoDB.products
        ([⟨"bbbbbbbbbbbbbbbbbbbbbbbb", 2⟩].erase ⟨"bbbbbbbbbbbbbbbbbbbbbbbb", 2⟩)).1 := by
  obtain ⟨h1, h2, h3⟩ := C4_unmatched_item_is_noop demoDB
    ⟨"Dan", "07000000005", none, some [⟨"bbbbbbbbbbbbbbbbbbbbbbbb", 2⟩]⟩
    [⟨"bbbbbbbbbbbbbbbbbbbbbbbb", 2⟩] ⟨"bbbbbbbbbbbbbbbbbbbbbbbb", 2⟩
    rfl (by decide) (by decide) (by decide) (List.mem_singleton.2 rfl) (by decide)
  exact ⟨h1, by simpa using h2, h3⟩

/-- C5 counterexample: the claim requires `items = []` to fail with
`InvalidRequest`, but `Array.isArray([])` is true, so the empty order
passes validation: the call answers 201 and the (empty-item) order is
recorded. -/
theorem C5_counterexample :
    (placeOrder demoDB ⟨"Fay", "07000000006", none, some []⟩).1.status = 201 ∧
    (placeOrder demoDB ⟨"Fay", "07000000006", none, some []⟩).2.orders =
      [⟨"Fay", "07000000006", none, []⟩] := by
  decide

/-- C5 amended: `placeOrder` fails with `InvalidRequest` (400, no write)
exactly when `name` is empty, `phone` is empty, or `items` is not an array;
an empty items list — and any non-positive qty — passes validation. -/
theorem C5_invalid_request_iff (db : DB) (b : OrderBody) :
    ((placeOrder db b).1.status = 400 ↔
      (b.name = "" ∨ b.phone = "" ∨ b.items = none)) ∧
    ((b.name = "" ∨ b.phone = "" ∨ b.items = none) →
      placeOrder db b = (⟨400, "Invalid order format"⟩, db)) := by
  rcases hb : b.items with _ | its
  · constructor
    · simp [placeOrder, hb]
    · intro _
      simp [placeOrder, hb]
  · by_cases hn : b.name = ""
    · constructor
      · simp [placeOrder, hb, hn]
      · intro _
        simp [placeOrder, hb, hn]
    · by_cases hp : b.phone = ""
      · constructor
        · simp [placeOrder, hb, hn, hp]
        · intro _
          simp [placeOrder, hb, hn, hp]
      · constructor
        · rw [placeOrder_valid db b its hb hn hp]
          constructor
          · intro h4
            split at h4 <;> simp_all
          · intro h4
            rcases h4 with h | h | h <;> simp_all
        · intro h4
          rcases h4 with h | h | h <;> simp_all

/-- Witness for C5 (amended): an invalid body (empty name) answers 400 with
the database unchanged. -/
theorem C5_witness :
    placeOrder demoDB ⟨"", "07000000011", none, some []⟩ =
      (⟨400, "Invalid order format"⟩, demoDB) :=
  (C5_invalid_request_iff demoDB ⟨"", "07000000011", none, some []⟩).2 (Or.inl rfl)

/-- C6 counterexample: the claim promises a success result of shape
`OrderResult { orderId, itemOutcomes }` whenever step 1 (persisting the
order) succeeds, regardless of per-item outcomes.  On the code, a request
whose item id is malformed persists the order (step 1 succeeded — the
record is in the store) yet answers 500 `"Error saving order"`, and no
response of the claimed shape exists anywhere: success responses are the
constant string `"Order saved"`. -/
theorem C6_counterexample :
    (placeOrder demoDB ⟨"Gil", "07000000007", none, some [⟨"zz", 1⟩]⟩).1 =
      ⟨500, "Error saving order"⟩ ∧
    (placeOrder demoDB ⟨"Gil", "07000000007", none, some [⟨"zz", 1⟩]⟩).2.orders =
      [⟨"Gil", "07000000007", none, [⟨"zz", 1⟩]⟩] := by
  decide

/-- C6 amended: once validation passes the order is persisted; the call
then returns the constant success response `201 "Order saved"` (carrying
no orderId and no itemOutcomes) when every item id is well-formed, and
`500 "Error saving order"` when some item id is malformed — even though
the order remains persisted. -/
theorem C6_result_shape (db : DB) (b : OrderBody) (its : List OrderItem)
    (hi : b.items = some its) (hn : b.name ≠ "") (hp : b.phone ≠ "") :
    ((∀ i ∈ its, objectIdIsValid i.lessonId = true) →
      (placeOrder db b).1 = ⟨201, "Order saved"⟩) ∧
    ((¬ ∀ i ∈ its, objectIdIsValid i.lessonId = true) →
      (placeOrder db b).1 = ⟨500, "Error saving order"⟩) ∧
    (placeOrder db b).2.orders = db.orders ++ [⟨b.name, b.phone, b.address, its⟩] := by
  rw [placeOrder_valid db b its hi hn hp]
  refine ⟨fun hv => by simp [applyItems_ok db.products its hv],
    fun hv => by simp [applyItems_fail db.products its hv], rfl⟩

/-- Witness for C6 (amended): one well-formed-id request answering 201 with
the constant body, and the persisted-order equation. -/
theorem C6_witness :
    (placeOrder demoDB ⟨"Hal", "07000000008", none,
        some [⟨"aaaaaaaaaaaaaaaaaaaaaaaa", 1⟩]⟩).1 = ⟨201, "Order saved"⟩ ∧
    (placeOrder demoDB ⟨"Hal", "07000000008", none,
        some [⟨"aaaaaaaaaaaaaaaaaaaaaaaa", 1⟩]⟩).2.orders =
      [⟨"Hal", "07000000008", none, [⟨"aaaaaaaaaaaaaaaaaaaaaaaa", 1⟩]⟩] := by
  obtain ⟨h1, _, h3⟩ := C6_result_shape demoDB
    ⟨"Hal", "07000000008", none, some [⟨"aaaaaaaaaaaaaaaaaaaaaaaa", 1⟩]⟩
    [⟨"aaaaaaaaaaaaaaaaaaaaaaaa", 1⟩] rfl (by decide) (by decide)
  exact ⟨h1 (by decide), by simpa using h3⟩

/-- C7: an empty (or missing — both are falsy) `name` or `phone` fails
validation: the response is 400 `"Invalid order format"` and the database
is returned unchanged — no order record and no catalog modification. -/
theorem C7_invalid_name_phone_no_writes (db : DB) (b : OrderBody)
    (h : b.name = "" ∨ b.phone = "") :
    placeOrder db b = (⟨400, "Invalid order format"⟩, db) := by
  rcases hb : b.items with _ | its
  · simp [placeOrder, hb]
  · rcases h with h | h <;> simp [placeOrder, hb, h]

/-- Witness for C7: `name = ""` with a well-formed order otherwise: 400 and
the database unchanged. -/
theorem C7_witness :
    placeOrder demoDB ⟨"", "07000000009", none,
        some [⟨"aaaaaaaaaaaaaaaaaaaaaaaa", 1⟩]⟩ =
      (⟨400, "Invalid order format"⟩, demoDB) :=
  C7_invalid_name_phone_no_writes demoDB
    ⟨"", "07000000009", none, some [⟨"aaaaaaaaaaaaaaaaaaaaaaaa", 1⟩]⟩ (Or.inl rfl)

/-- C8 counterexample: the claim's characterisation "returns exactly the
entries for which q is a case-insensitive substring of one of the four
rendered fields" fails for query `"."`: the code hands the query to the
database as a regular expression, so `"."` matches every entry with a
non-empty field, although `"."` is a substring of none of this entry's
fields. -/
theorem C8_counterexample :
    searchLessons [mathsEntry] (some ".") = some [mathsEntry] ∧
    specMatches "." mathsEntry = false ∧
    [mathsEntry].filter (specMatches ".") = [] := by
  decide

/-- C8 amended: for every query containing no regex metacharacter (after
the handler's lower-casing), search returns exactly the entries with a
case-insensitive substring match of the query in subject, location, or the
decimal renderings of price or spaces; the empty query returns every entry;
and `"MATH"` and `"math"` return identical results.  Queries containing
metacharacters are instead interpreted as regular expressions. -/
theorem C8_search_is_ci_substring (ps : List CatalogEntry) (q : String)
    (hq : ∀ c ∈ q.toList.map lc, c ≠ '.' ∧ regexMeta.contains c = false) :
    searchLessons ps (some q) = some (ps.filter (specMatches q)) ∧
    searchLessons ps (some "") = some ps ∧
    searchLessons ps (some "MATH") = searchLessons ps (some "math") := by
  refine ⟨?_, ?_, ?_⟩
  · simp only [searchLessons, Option.getD_some]
    rw [compileRegex_lits (q.toList.map lc) hq]
    simp only [Option.map_some']
    congr 1
    apply List.filter_congr
    intro e _
    exact entryMatches_eq_specMatches q.toList e
  · simp only [searchLessons, Option.getD_some]
    have h1 : compileRegex (("" : String).toList.map lc) = some [] := rfl
    rw [h1]
    simp only [Option.map_some']
    congr 1
    have h2 : ∀ e ∈ ps, entryMatches [] e = (fun _ => true) e := fun e _ => by
      simp [entryMatches, regexFind_nil]
    rw [List.filter_congr h2, List.filter_true]
  · have h3 : (("MATH" : String).toList.map lc) = (("math" : String).toList.map lc) := by
      decide
    simp only [searchLessons, Option.getD_some, h3]

/-- Witness for C8 at the spec's own example: a one-entry catalog queried
with `"MATH"`. -/
theorem C8_witness :
    searchLessons [mathsEntry] (some "MATH") =
      some ([mathsEntry].filter (specMatches "MATH")) ∧
    searchLessons [mathsEntry] (some "") = some [mathsEntry] ∧
    searchLessons [mathsEntry] (some "MATH") = searchLessons [mathsEntry] (some "math") :=
  C8_search_is_ci_substring [mathsEntry] "MATH" (by decide)

/-- C9 counterexample: for a well-formed id matching no entry the claim
requires `applied = false` with a success (non-error) response; the code
instead answers the error response 404 `"Lesson not found"` (the spec's
own status table classes 404 as "not found" failure, not success). -/
theorem C9_counterexample :
    objectIdIsValid "bbbbbbbbbbbbbbbbbbbbbbbb" = true ∧
    updateLesson demoDB "bbbbbbbbbbbbbbbbbbbbbbbb" ⟨some "Sci", none, none, none⟩ =
      (⟨404, "Lesson not found"⟩, demoDB) := by
  decide

/-- C9 amended: `updateEntry` fails with `InvalidIdentifier` (400) for
every malformed id, and for a well-formed id matching no entry it fails
with `NotFound` (404) — an error response, not an `applied = false`
success — leaving every catalog entry unchanged in both cases. -/
theorem C9_update_id_handling (db : DB) (id : String) (u : UpdateFields) :
    (objectIdIsValid id = false →
      updateLesson db id u = (⟨400, "Invalid lesson ID"⟩, db)) ∧
    (objectIdIsValid id = true → findEntry db.products id = none →
      updateLesson db id u = (⟨404, "Lesson not found"⟩, db)) := by
  constructor
  · intro h
    simp [updateLesson, h]
  · intro h hnone
    simp [updateLesson, h, setOne_of_none db.products id u hnone]

/-- Witness for C9 (amended): a malformed id answers 400 and an unmatched
well-formed id answers 404, the database unchanged both times. -/
theorem C9_witness :
    updateLesson demoDB "not-a-valid-id" ⟨none, none, none, some 9⟩ =
      (⟨400, "Invalid lesson ID"⟩, demoDB) ∧
    updateLesson demoDB "cccccccccccccccccccccccc" ⟨none, none, none, some 9⟩ =
      (⟨404, "Lesson not found"⟩, demoDB) :=
  ⟨(C9_update_id_handling demoDB "not-a-valid-id" ⟨none, none, none, some 9⟩).1
      (by decide),
    (C9_update_id_handling demoDB "cccccccccccccccccccccccc"
      ⟨none, none, none, some 9⟩).2 (by decide) (by decide)⟩

/-- C10: quantities are never checked at application time: for a validated
request (well-formed, pairwise-distinct item ids), a matched entry ends
with `spaces - qty` whatever the sign of qty — qty 0 leaves it unchanged
and a negative qty increases spaces by `|qty|`, so placing an order can
grow inventory. -/
theorem C10_qty_never_checked
    (db : DB) (b : OrderBody) (its : List OrderItem) (it : OrderItem) (e : CatalogEntry)
    (hi : b.items = some its) (hn : b.name ≠ "") (hp : b.phone ≠ "")
    (hv : ∀ i ∈ its, objectIdIsValid i.lessonId = true)
    (hdist : its.Pairwise fun a c => oidNorm a.lessonId ≠ oidNorm c.lessonId)
    (hmem : it ∈ its)
    (hfind : findEntry db.products it.lessonId = some e) :
    (placeOrder db b).1.status = 201 ∧
    findEntry (placeOrder db b).2.products it.lessonId =
      some { e with spaces := e.spaces - it.qty } ∧
    (it.qty = 0 → e.spaces - it.qty = e.spaces) ∧
    (it.qty < 0 → e.spaces - it.qty = e.spaces + it.qty.natAbs) := by
  rw [placeOrder_valid db b its hi hn hp]
  refine ⟨by simp [applyItems_ok db.products its hv],
    by simpa using applyItems_find db.products its it e hv hdist hmem hfind,
    by omega, by omega⟩

/-- Witness for C10: ordering qty -2 against spaces 5 succeeds and grows
the inventory to 7. -/
theorem C10_witness :
    (placeOrder demoDB ⟨"Ivy", "07000000010", none,
        some [⟨"aaaaaaaaaaaaaaaaaaaaaaaa", -2⟩]⟩).1.status = 201 ∧
    findEntry (placeOrder demoDB ⟨"Ivy", "07000000010", none,
        some [⟨"aaaaaaaaaaaaaaaaaaaaaaaa", -2⟩]⟩).2.products "aaaaaaaaaaaaaaaaaaaaaaaa" =
      some ⟨"aaaaaaaaaaaaaaaaaaaaaaaa", "Math", "Hendon", 100, 7⟩ := by
  obtain ⟨h1, h2, _, _⟩ := C10_qty_never_checked demoDB
    ⟨"Ivy", "07000000010", none, some [⟨"aaaaaaaaaaaaaaaaaaaaaaaa", -2⟩]⟩
    [⟨"aaaaaaaaaaaaaaaaaaaaaaaa", -2⟩] ⟨"aaaaaaaaaaaaaaaaaaaaaaaa", -2⟩ mathsEntry
    rfl (by decide) (by decide) (by decide) (by decide)
    (List.mem_singleton.2 rfl) (by decide)
  exact ⟨h1, by rw [h2]; decide⟩

end LessonShop
